import Mathlib

/-!
Shallow embedding of `src/oci_a1_autoclaim.py` (the OCI A1 auto-claim
script).  Pure functions of the script are translated to Lean functions;
the effectful retry loop in `main` is translated to a fuel-indexed step
function over an oracle that supplies, for each attempt number, the result
that `try_launch` would produce (return value, raised `RuntimeError`
message, or an escaping non-`RuntimeError` exception).  All definitions
are executable so that concrete runs can be evaluated by `decide`/`rfl`.
-/

namespace Ocpl

/-! ## String helpers mirroring the Python string operations used by the
script: `sub in s` (substring test), `s.startswith(p)` and `s.lower()`.
`Char.toLower` in Lean lowers exactly the ASCII range, which matches
`str.lower` on all the ASCII keyword material the script inspects. -/

/-- Substring test on charater lists: Python `sub in s`. -/
def subIn (sub : List Char) : List Char → Bool
  | [] => sub.isPrefixOf []
  | c :: t => sub.isPrefixOf (c :: t) || subIn sub t

/-- Python `sub in s` on strings. -/
def strIn (sub s : String) : Bool := subIn sub.toList s.toList

/-- Python `s.startswith(p)`. -/
def strStartsWith (s p : String) : Bool := List.isPrefixOf p.toList s.toList

/-- Python `s.lower()` (ASCII case folding, which covers every keyword the
script compares against). -/
def strLower (s : String) : String := ⟨s.data.map Char.toLower⟩

/-- Lexicographic code-point comparison on char lists: Python `a <= b`
for strings. -/
def charListLe : List Char → List Char → Bool
  | [], _ => true
  | _ :: _, [] => false
  | a :: as, b :: bs =>
    if a.toNat < b.toNat then true
    else if b.toNat < a.toNat then false
    else charListLe as bs

/-- Python `a <= b` on strings (code-point lexicographic). -/
def strLe (a b : String) : Bool := charListLe a.toList b.toList

/-- Ordered insertion used by `sortBy`. -/
def insertBy {α : Type} (le : α → α → Bool) (a : α) : List α → List α
  | [] => [a]
  | b :: t => if le a b then a :: b :: t else b :: insertBy le a t

/-- Stable ascending sort (insertion sort), modelling Python `sorted`:
equal keys keep their input order. -/
def sortBy {α : Type} (le : α → α → Bool) : List α → List α
  | [] => []
  | a :: t => insertBy le a (sortBy le t)

/-! ## Error classification, from `try_launch` lines 304-312.

```python
except oci.exceptions.ServiceError as e:
    msg = (e.message or "").lower()
    if e.status == 404 or "notauthorized" in msg or "not found" in msg:
        raise RuntimeError("AUTH_OR_NOTFOUND: ...")
    if any(k in msg for k in ["capacity", "outofhostcapacity", "out of capacity", "insufficient"]):
        raise RuntimeError("CAPACITY")
    raise RuntimeError(f"API:{e.status} {e.code} {e.message}")
```
-/

/-- The fixed message of the non-retryable `RuntimeError` (line 307). -/
def authOrNotFoundMsg : String :=
  "AUTH_OR_NOTFOUND: 请检查 region/OCID/权限（子网/镜像/AD）。"

/-- Capacity keyword family checked at line 308. -/
def capacityKeywords : List String :=
  ["capacity", "outofhostcapacity", "out of capacity", "insufficient"]

/-- Message of the fall-through `RuntimeError` (line 310),
`f"API:{e.status} {e.code} {e.message}"`. -/
def apiMsg (status : Nat) (code message : String) : String :=
  "API:" ++ (toString status ++ " " ++ code ++ " " ++ message)

/-- The `ServiceError` handler of `try_launch` (lines 304-310): maps the
provider error `(status, code, message)` to the `RuntimeError` message it
raises. -/
def classifyServiceErr (status : Nat) (code message : String) : String :=
  let msg := strLower message
  if status = 404 || strIn "notauthorized" msg || strIn "not found" msg then
    authOrNotFoundMsg
  else if capacityKeywords.any (fun k => strIn k msg) then
    "CAPACITY"
  else
    apiMsg status code message

/-! ## The per-attempt interface between `try_launch` and `main`. -/

/-- What one invocation of `try_launch` delivers to `main`'s loop:
a normal return `(instance id, public ip)`, a raised `RuntimeError`
carrying a message, or a non-`RuntimeError` exception that escapes
(e.g. an `OSError` from the SSH-key `open` at line 251, which sits
outside the `try` block). -/
inductive AttemptResult where
  | ok (instId publicIp : String)
  | err (msg : String)
  | exn (excName : String)
deriving DecidableEq

/-- The branch of `main`'s exception handling (lines 359-379) that an
attempt result selects. -/
inductive Branch where
  | success
  | capacity
  | abort
  | transient
  | exnOther
deriving DecidableEq

/-- Dispatch of `main` on an attempt result: `msg == "CAPACITY"` → sleep
and continue (line 367); `msg.startswith("AUTH_OR_NOTFOUND")` → return
(line 370); any other `RuntimeError` → sleep and continue (line 373);
any other exception → sleep and continue (line 376). -/
def mainBranch : AttemptResult → Branch
  | .ok _ _ => .success
  | .err m =>
    if m = "CAPACITY" then .capacity
    else if strStartsWith m "AUTH_OR_NOTFOUND" then .abort
    else .transient
  | .exn _ => .exnOther

/-- Results on which the loop sleeps and advances to the next candidate. -/
def isRetryable (r : AttemptResult) : Bool :=
  match mainBranch r with
  | .capacity => true
  | .transient => true
  | .exnOther => true
  | _ => false

/-! ## Candidate generation, from `main` lines 353-357.

```python
while True:
    for ad in ad_order:
        for ocpu in OCPU_CANDIDATES:
            mem = ocpu * MEM_PER_OCPU
```
-/

/-- A placement candidate: availability domain, OCPU count, memory GB. -/
abbrev Cand := String × Nat × Nat

/-- The ordered candidate sequence of one pass of the nested `for` loops:
availability domains outer, OCPU counts inner, memory = ocpu × ratio. -/
def candidates (adOrderL : List String) (ocpus : List Nat) (memPerOcpu : Nat) :
    List Cand :=
  adOrderL.flatMap fun ad => ocpus.map fun o => (ad, o, o * memPerOcpu)

/-- `list_availability_domains` (lines 82-87): the provider listing sorted
by name, or the configured `ADS` literal list if the call fails.  The
provider's answer is modelled as `Option (List String)` (`none` = the call
raised). -/
def list_availability_domains (provResult : Option (List String))
    (ads : List String) : List String :=
  match provResult with
  | some names => sortBy strLe names
  | none => ads

/-- `ad_order` (line 344):
`[ad for ad in ADS if any(ad == r for r in real_ads)] or real_ads or ADS`. -/
def adOrder (ads realAds : List String) : List String :=
  let filtered := ads.filter fun ad => realAds.any fun r => ad == r
  if filtered.isEmpty then (if realAds.isEmpty then ads else realAds) else filtered

/-! ## The retry loop of `main` (lines 352-380), as a fuel-indexed step
function.

The nested `for` loops over the fixed candidate list are modelled by an
index into `candidates` that wraps at the end of a pass; one unit of fuel
is one loop-body iteration.  Events record the observable actions: issuing
an attempt for a candidate, a `time.sleep(SLEEP_SECONDS)`, and the write
of `SUCCESS.txt`. -/

/-- Observable loop events. -/
inductive Event where
  | attempt (c : Cand)
  | sleep (secs : Nat)
  | writeRecord (content : String)
deriving DecidableEq

/-- Terminal (or fuel-exhausted) status of a modelled run. -/
inductive RunResult where
  | succeeded (instId publicIp : String)
  | aborted
  | outOfFuel (nextAttempt nextIdx : Nat)
deriving DecidableEq

/-- The two-line `SUCCESS.txt` content written at lines 362-363. -/
def successRecord (inst ip : String) : String := inst ++ "\n" ++ ip ++ "\n"

/-- Default candidate for out-of-range `getD` (never reached on the paths
the theorems traverse). -/
def dfltCand : Cand := ("", 0, 0)

/-- One scheduler run.  `oracle n` is the result of the `n`-th
`try_launch` invocation; `idx` is the position in the flattened candidate
list; fuel bounds the number of loop-body iterations.  On success the loop
writes the record and returns (lines 360-364); on `"CAPACITY"` and on any
other retryable result it sleeps and moves on (lines 367-369, 373-379);
on an `"AUTH_OR_NOTFOUND"`-prefixed message it returns (lines 370-372).
After the last candidate of a pass the loop sleeps once more (line 380)
before restarting at index 0. -/
def run (sleepSec : Nat) (oracle : Nat → AttemptResult) (cands : List Cand) :
    Nat → Nat → Nat → List Event × RunResult
  | 0, n, idx => ([], .outOfFuel n idx)
  | fuel + 1, n, idx =>
    if idx < cands.length then
      let c := cands.getD idx dfltCand
      let retryStep : List Event × RunResult :=
        if idx + 1 = cands.length then
          let r := run sleepSec oracle cands fuel (n + 1) 0
          (.attempt c :: .sleep sleepSec :: .sleep sleepSec :: r.1, r.2)
        else
          let r := run sleepSec oracle cands fuel (n + 1) (idx + 1)
          (.attempt c :: .sleep sleepSec :: r.1, r.2)
      match oracle n with
      | .ok inst ip =>
        ([.attempt c, .writeRecord (successRecord inst ip)], .succeeded inst ip)
      | .err m =>
        if m = "CAPACITY" then retryStep
        else if strStartsWith m "AUTH_OR_NOTFOUND" then
          ([.attempt c], .aborted)
        else retryStep
      | .exn _ => retryStep
    else
      let r := run sleepSec oracle cands fuel n 0
      (.sleep sleepSec :: r.1, r.2)

/-- Candidates attempted in a trace, in order. -/
def attemptsOf (evs : List Event) : List Cand :=
  evs.filterMap fun e => match e with | .attempt c => some c | _ => none

/-- Success-record writes in a trace, in order. -/
def writesOf (evs : List Event) : List String :=
  evs.filterMap fun e => match e with | .writeRecord s => some s | _ => none

/-- A trace is write-terminal: any record write is its last event. -/
def okTrace : List Event → Bool
  | [] => true
  | .writeRecord _ :: rest => rest.isEmpty
  | _ :: rest => okTrace rest

/-- Expected trace of `N` consecutive retryable attempts starting at
candidate index `idx`: each attempt is followed by one sleep, plus one
extra sleep when the pass wraps. -/
def retryTrace (sleepSec : Nat) (cands : List Cand) : Nat → Nat → List Event
  | 0, _ => []
  | N + 1, idx =>
    .attempt (cands.getD idx dfltCand) :: .sleep sleepSec ::
      (if idx + 1 = cands.length then
        .sleep sleepSec :: retryTrace sleepSec cands N 0
      else retryTrace sleepSec cands N (idx + 1))

/-- Candidate index after `N` retryable attempts starting at `idx`. -/
def advanceIdx (len : Nat) : Nat → Nat → Nat
  | 0, idx => idx
  | N + 1, idx => advanceIdx len N (if idx + 1 = len then 0 else idx + 1)

/-! ## Step lemmas for `run`. -/

theorem run_zero (s : Nat) (oracle : Nat → AttemptResult) (cands : List Cand)
    (n idx : Nat) : run s oracle cands 0 n idx = ([], .outOfFuel n idx) := rfl

/-- The sleep-and-advance step shape shared by the capacity, transient and
escaping-exception branches. -/
def retryStepFn (s : Nat) (oracle : Nat → AttemptResult) (cands : List Cand)
    (fuel n idx : Nat) : List Event × RunResult :=
  if idx + 1 = cands.length then
    let r := run s oracle cands fuel (n + 1) 0
    (.attempt (cands.getD idx dfltCand) :: .sleep s :: .sleep s :: r.1, r.2)
  else
    let r := run s oracle cands fuel (n + 1) (idx + 1)
    (.attempt (cands.getD idx dfltCand) :: .sleep s :: r.1, r.2)

theorem run_succ_ok (s : Nat) (oracle : Nat → AttemptResult) (cands : List Cand)
    (fuel n idx : Nat) (inst ip : String) (hidx : idx < cands.length)
    (h : oracle n = .ok inst ip) :
    run s oracle cands (fuel + 1) n idx =
      ([.attempt (cands.getD idx dfltCand), .writeRecord (successRecord inst ip)],
        .succeeded inst ip) := by
  simp only [run, if_pos hidx, h]

theorem run_succ_abort (s : Nat) (oracle : Nat → AttemptResult) (cands : List Cand)
    (fuel n idx : Nat) (m : String) (hidx : idx < cands.length)
    (h : oracle n = .err m) (hcap : m ≠ "CAPACITY")
    (hpre : strStartsWith m "AUTH_OR_NOTFOUND" = true) :
    run s oracle cands (fuel + 1) n idx =
      ([.attempt (cands.getD idx dfltCand)], .aborted) := by
  simp only [run, if_pos hidx, h, if_neg hcap, hpre, if_true]

theorem run_succ_retry (s : Nat) (oracle : Nat → AttemptResult) (cands : List Cand)
    (fuel n idx : Nat) (hidx : idx < cands.length)
    (hr : isRetryable (oracle n) = true) :
    run s oracle cands (fuel + 1) n idx = retryStepFn s oracle cands fuel n idx := by
  cases h : oracle n with
  | ok inst ip => rw [h] at hr; simp [isRetryable, mainBranch] at hr
  | err m =>
    rw [h] at hr
    by_cases hm : m = "CAPACITY"
    · simp only [run, if_pos hidx, h, if_pos hm, retryStepFn]
    · by_cases hp : strStartsWith m "AUTH_OR_NOTFOUND" = true
      · simp [isRetryable, mainBranch, hm, hp] at hr
      · simp only [run, if_pos hidx, h, if_neg hm, Bool.not_eq_true] at *
        simp only [hp, Bool.false_eq_true, if_false, retryStepFn]
  | exn e => simp only [run, if_pos hidx, h, retryStepFn]

theorem isRetryable_err_of_not_auth (m : String)
    (hp : strStartsWith m "AUTH_OR_NOTFOUND" = false) :
    isRetryable (.err m) = true := by
  by_cases hm : m = "CAPACITY"
  · subst hm; decide
  · simp [isRetryable, mainBranch, hm, hp]

theorem ne_capacity_of_auth (m : String)
    (hpre : strStartsWith m "AUTH_OR_NOTFOUND" = true) : m ≠ "CAPACITY" := by
  intro hm; subst hm; exact absurd hpre (by decide)

/-! ## Trace lemmas. -/

theorem attemptsOf_nil : attemptsOf [] = [] := rfl

theorem attemptsOf_cons_attempt (c : Cand) (evs : List Event) :
    attemptsOf (.attempt c :: evs) = c :: attemptsOf evs := rfl

theorem attemptsOf_cons_sleep (s : Nat) (evs : List Event) :
    attemptsOf (.sleep s :: evs) = attemptsOf evs := rfl

theorem attemptsOf_cons_write (r : String) (evs : List Event) :
    attemptsOf (.writeRecord r :: evs) = attemptsOf evs := rfl

theorem writesOf_cons_attempt (c : Cand) (evs : List Event) :
    writesOf (.attempt c :: evs) = writesOf evs := rfl

theorem writesOf_cons_sleep (s : Nat) (evs : List Event) :
    writesOf (.sleep s :: evs) = writesOf evs := rfl

theorem writesOf_cons_write (r : String) (evs : List Event) :
    writesOf (.writeRecord r :: evs) = r :: writesOf evs := rfl

/-! ## A prefix of retryable outcomes never terminates the loop: the run
follows `retryTrace` and ends out of fuel at `advanceIdx`. -/

theorem advanceIdx_lt (len N idx : Nat) (hlen : 0 < len) (hidx : idx < len) :
    advanceIdx len N idx < len := by
  induction N generalizing idx with
  | zero => exact hidx
  | succ N ih =>
    simp only [advanceIdx]
    by_cases h : idx + 1 = len
    · rw [if_pos h]; exact ih 0 hlen
    · rw [if_neg h]; exact ih (idx + 1) (by omega)

theorem run_retry_trace (s : Nat) (oracle : Nat → AttemptResult)
    (cands : List Cand) (N n idx : Nat)
    (hne : cands ≠ []) (hidx : idx < cands.length)
    (hret : ∀ k, k < N → isRetryable (oracle (n + k)) = true) :
    run s oracle cands N n idx =
      (retryTrace s cands N idx,
        .outOfFuel (n + N) (advanceIdx cands.length N idx)) := by
  induction N generalizing n idx with
  | zero => simp [run_zero, retryTrace, advanceIdx]
  | succ N ih =>
    have h0 : isRetryable (oracle n) = true := by
      simpa using hret 0 (Nat.succ_pos N)
    rw [run_succ_retry s oracle cands N n idx hidx h0]
    have hlen : 0 < cands.length := List.length_pos.mpr hne
    by_cases hw : idx + 1 = cands.length
    · have ihw := ih (n + 1) 0 hlen
        (fun k hk => by
          have := hret (k + 1) (by omega)
          simpa [Nat.add_assoc, Nat.add_comm 1 k] using this)
      simp only [retryStepFn, if_pos hw, ihw, retryTrace, advanceIdx]
      refine Prod.ext ?_ ?_
      · simp [hw]
      · simp [hw]
        omega
    · have hidx' : idx + 1 < cands.length := by omega
      have ihw := ih (n + 1) (idx + 1) hidx'
        (fun k hk => by
          have := hret (k + 1) (by omega)
          simpa [Nat.add_assoc, Nat.add_comm 1 k] using this)
      simp only [retryStepFn, if_neg hw, ihw, retryTrace, advanceIdx]
      refine Prod.ext ?_ ?_
      · simp [hw]
      · simp [hw]
        omega

/-! ## Shape of `retryTrace`: one attempt per retryable outcome, no
record writes. -/

theorem retryTrace_attempts_length (s : Nat) (cands : List Cand) (N idx : Nat) :
    (attemptsOf (retryTrace s cands N idx)).length = N := by
  induction N generalizing idx with
  | zero => simp [retryTrace, attemptsOf]
  | succ N ih =>
    by_cases hw : idx + 1 = cands.length
    · simp [retryTrace, hw, attemptsOf_cons_attempt, attemptsOf_cons_sleep, ih]
    · simp [retryTrace, hw, attemptsOf_cons_attempt, attemptsOf_cons_sleep, ih]

theorem retryTrace_writes (s : Nat) (cands : List Cand) (N idx : Nat) :
    writesOf (retryTrace s cands N idx) = [] := by
  induction N generalizing idx with
  | zero => simp [retryTrace, writesOf]
  | succ N ih =>
    by_cases hw : idx + 1 = cands.length
    · simp [retryTrace, hw, writesOf_cons_attempt, writesOf_cons_sleep, ih]
    · simp [retryTrace, hw, writesOf_cons_attempt, writesOf_cons_sleep, ih]

/-! ## After `N` retryable outcomes, attempt `N + 1` is always issued. -/

theorem run_attempts_count (s : Nat) (oracle : Nat → AttemptResult)
    (cands : List Cand) (N n idx : Nat)
    (hne : cands ≠ []) (hidx : idx < cands.length)
    (hret : ∀ k, k < N → isRetryable (oracle (n + k)) = true) :
    (attemptsOf (run s oracle cands (N + 1) n idx).1).length = N + 1 := by
  induction N generalizing n idx with
  | zero =>
    cases ho : oracle n with
    | ok inst ip =>
      rw [run_succ_ok s oracle cands 0 n idx inst ip hidx ho]
      simp [attemptsOf]
    | err m =>
      by_cases hp : strStartsWith m "AUTH_OR_NOTFOUND" = true
      · by_cases hm : m = "CAPACITY"
        · subst hm; exact absurd hp (by decide)
        · rw [run_succ_abort s oracle cands 0 n idx m hidx ho hm hp]
          simp [attemptsOf]
      · have hr : isRetryable (oracle n) = true := by
          rw [ho]
          exact isRetryable_err_of_not_auth m (by simpa using hp)
        rw [run_succ_retry s oracle cands 0 n idx hidx hr]
        by_cases hw : idx + 1 = cands.length
        · simp [retryStepFn, hw, run_zero, attemptsOf]
        · simp [retryStepFn, hw, run_zero, attemptsOf]
    | exn e =>
      have hr : isRetryable (oracle n) = true := by rw [ho]; rfl
      rw [run_succ_retry s oracle cands 0 n idx hidx hr]
      by_cases hw : idx + 1 = cands.length
      · simp [retryStepFn, hw, run_zero, attemptsOf]
      · simp [retryStepFn, hw, run_zero, attemptsOf]
  | succ N ih =>
    have h0 : isRetryable (oracle n) = true := by
      simpa using hret 0 (Nat.succ_pos N)
    rw [run_succ_retry s oracle cands (N + 1) n idx hidx h0]
    have hshift : ∀ k, k < N → isRetryable (oracle (n + 1 + k)) = true := by
      intro k hk
      have := hret (k + 1) (by omega)
      simpa [Nat.add_assoc, Nat.add_comm 1 k] using this
    have hlen : 0 < cands.length := List.length_pos.mpr hne
    by_cases hw : idx + 1 = cands.length
    · have := ih (n + 1) 0 hlen hshift
      simp only [retryStepFn, if_pos hw, attemptsOf_cons_attempt,
        attemptsOf_cons_sleep, List.length_cons, this]
    · have hidx' : idx + 1 < cands.length := by omega
      have := ih (n + 1) (idx + 1) hidx' hshift
      simp only [retryStepFn, if_neg hw, attemptsOf_cons_attempt,
        attemptsOf_cons_sleep, List.length_cons, this]

/-! ## A non-retryable verdict ends the run in `aborted`, regardless of
remaining fuel. -/

theorem run_aborted_after (s : Nat) (oracle : Nat → AttemptResult)
    (cands : List Cand) (N n idx : Nat) (m : String)
    (hne : cands ≠ []) (hidx : idx < cands.length)
    (hret : ∀ k, k < N → isRetryable (oracle (n + k)) = true)
    (hnr : oracle (n + N) = .err m)
    (hpre : strStartsWith m "AUTH_OR_NOTFOUND" = true) :
    ∀ fuel, N < fuel →
      run s oracle cands fuel n idx =
        (retryTrace s cands N idx ++
          [.attempt (cands.getD (advanceIdx cands.length N idx) dfltCand)],
          .aborted) := by
  induction N generalizing n idx with
  | zero =>
    intro fuel hfuel
    obtain ⟨f, rfl⟩ : ∃ f, fuel = f + 1 := ⟨fuel - 1, by omega⟩
    have hnr' : oracle n = .err m := by simpa using hnr
    rw [run_succ_abort s oracle cands f n idx m hidx hnr'
      (ne_capacity_of_auth m hpre) hpre]
    simp [retryTrace, advanceIdx]
  | succ N ih =>
    intro fuel hfuel
    obtain ⟨f, rfl⟩ : ∃ f, fuel = f + 1 := ⟨fuel - 1, by omega⟩
    have h0 : isRetryable (oracle n) = true := by
      simpa using hret 0 (Nat.succ_pos N)
    rw [run_succ_retry s oracle cands f n idx hidx h0]
    have hshift : ∀ k, k < N → isRetryable (oracle (n + 1 + k)) = true := by
      intro k hk
      have := hret (k + 1) (by omega)
      simpa [Nat.add_assoc, Nat.add_comm 1 k] using this
    have hnr1 : oracle (n + 1 + N) = .err m := by
      have : n + 1 + N = n + (N + 1) := by omega
      rw [this]; exact hnr
    have hlen : 0 < cands.length := List.length_pos.mpr hne
    by_cases hw : idx + 1 = cands.length
    · have := ih (n + 1) 0 hlen hshift hnr1 f (by omega)
      simp only [retryStepFn, if_pos hw, this, retryTrace, advanceIdx]
      simp [hw]
    · have hidx' : idx + 1 < cands.length := by omega
      have := ih (n + 1) (idx + 1) hidx' hshift hnr1 f (by omega)
      simp only [retryStepFn, if_neg hw, this, retryTrace, advanceIdx]
      simp [hw]

/-! ## Generic case split for one loop iteration. -/

theorem run_succ_else (s : Nat) (oracle : Nat → AttemptResult) (cands : List Cand)
    (fuel n idx : Nat) (hidx : ¬ idx < cands.length) :
    run s oracle cands (fuel + 1) n idx =
      (.sleep s :: (run s oracle cands fuel n 0).1,
        (run s oracle cands fuel n 0).2) := by
  simp only [run, if_neg hidx]

theorem run_succ_cases (s : Nat) (oracle : Nat → AttemptResult) (cands : List Cand)
    (fuel n idx : Nat) (hidx : idx < cands.length) :
    (∃ inst ip, run s oracle cands (fuel + 1) n idx =
        ([.attempt (cands.getD idx dfltCand), .writeRecord (successRecord inst ip)],
          .succeeded inst ip)) ∨
    run s oracle cands (fuel + 1) n idx =
        ([.attempt (cands.getD idx dfltCand)], .aborted) ∨
    run s oracle cands (fuel + 1) n idx = retryStepFn s oracle cands fuel n idx := by
  cases ho : oracle n with
  | ok inst ip =>
    exact .inl ⟨inst, ip, run_succ_ok s oracle cands fuel n idx inst ip hidx ho⟩
  | err m =>
    by_cases hp : strStartsWith m "AUTH_OR_NOTFOUND" = true
    · by_cases hm : m = "CAPACITY"
      · subst hm; exact absurd hp (by decide)
      · exact .inr (.inl (run_succ_abort s oracle cands fuel n idx m hidx ho hm hp))
    · refine .inr (.inr (run_succ_retry s oracle cands fuel n idx hidx ?_))
      rw [ho]
      exact isRetryable_err_of_not_auth m (by simpa using hp)
  | exn e =>
    refine .inr (.inr (run_succ_retry s oracle cands fuel n idx hidx ?_))
    rw [ho]; rfl

/-! ## Record writes: every trace is write-terminal, and a successful run
writes exactly the two-line record, once. -/

theorem okTrace_run (s : Nat) (oracle : Nat → AttemptResult) (cands : List Cand)
    (fuel n idx : Nat) : okTrace (run s oracle cands fuel n idx).1 = true := by
  induction fuel generalizing n idx with
  | zero => rfl
  | succ f ih =>
    by_cases hidx : idx < cands.length
    · rcases run_succ_cases s oracle cands f n idx hidx with ⟨inst, ip, heq⟩ | heq | heq
      · rw [heq]; rfl
      · rw [heq]; rfl
      · rw [heq]
        simp only [retryStepFn]
        by_cases hw : idx + 1 = cands.length
        · rw [if_pos hw]; simpa [okTrace] using ih (n + 1) 0
        · rw [if_neg hw]; simpa [okTrace] using ih (n + 1) (idx + 1)
    · rw [run_succ_else s oracle cands f n idx hidx]
      simpa [okTrace] using ih n 0

theorem okTrace_write_last (r : String) (pre post : List Event)
    (hok : okTrace (pre ++ .writeRecord r :: post) = true) : post = [] := by
  induction pre with
  | nil =>
    simp only [List.nil_append, okTrace] at hok
    exact List.isEmpty_iff.mp hok
  | cons e pre ih =>
    cases e with
    | attempt c => exact ih (by simpa [okTrace] using hok)
    | sleep s => exact ih (by simpa [okTrace] using hok)
    | writeRecord w =>
      simp only [List.cons_append, okTrace] at hok
      have := List.isEmpty_iff.mp hok
      simp at this

theorem okTrace_writes_le_one (evs : List Event) (hok : okTrace evs = true) :
    (writesOf evs).length ≤ 1 := by
  induction evs with
  | nil => simp [writesOf]
  | cons e rest ih =>
    cases e with
    | attempt c =>
      rw [writesOf_cons_attempt]; exact ih (by simpa [okTrace] using hok)
    | sleep s =>
      rw [writesOf_cons_sleep]; exact ih (by simpa [okTrace] using hok)
    | writeRecord w =>
      rw [writesOf_cons_write]
      have : rest = [] := List.isEmpty_iff.mp (by simpa [okTrace] using hok)
      subst this
      simp [writesOf]

theorem run_succeeded_writes (s : Nat) (oracle : Nat → AttemptResult)
    (cands : List Cand) (fuel n idx : Nat) (inst ip : String)
    (hres : (run s oracle cands fuel n idx).2 = .succeeded inst ip) :
    writesOf (run s oracle cands fuel n idx).1 = [successRecord inst ip] := by
  induction fuel generalizing n idx with
  | zero => simp [run_zero] at hres
  | succ f ih =>
    by_cases hidx : idx < cands.length
    · rcases run_succ_cases s oracle cands f n idx hidx with ⟨i', p', heq⟩ | heq | heq
      · rw [heq] at hres ⊢
        simp only at hres
        obtain ⟨rfl, rfl⟩ : i' = inst ∧ p' = ip := by
          cases hres; exact ⟨rfl, rfl⟩
        simp [writesOf]
      · rw [heq] at hres; simp at hres
      · rw [heq] at hres ⊢
        simp only [retryStepFn] at hres ⊢
        by_cases hw : idx + 1 = cands.length
        · rw [if_pos hw] at hres ⊢
          simp only [writesOf_cons_attempt, writesOf_cons_sleep]
          exact ih (n + 1) 0 (by simpa using hres)
        · rw [if_neg hw] at hres ⊢
          simp only [writesOf_cons_attempt, writesOf_cons_sleep]
          exact ih (n + 1) (idx + 1) (by simpa using hres)
    · rw [run_succ_else s oracle cands f n idx hidx] at hres ⊢
      simp only [writesOf_cons_sleep]
      exact ih n 0 (by simpa using hres)

/-! ## The candidate used at the `k`-th attempt is fully determined by the
candidate list and the starting index — never by the oracle's outcomes. -/

theorem run_attempt_kth (s : Nat) (oracle : Nat → AttemptResult)
    (cands : List Cand) (fuel n idx k : Nat)
    (hidx : idx < cands.length)
    (hk : k < (attemptsOf (run s oracle cands fuel n idx).1).length) :
    (attemptsOf (run s oracle cands fuel n idx).1).getD k dfltCand =
      cands.getD ((idx + k) % cands.length) dfltCand := by
  induction fuel generalizing n idx k with
  | zero => simp [run_zero, attemptsOf] at hk
  | succ f ih =>
    have hlen : 0 < cands.length := by omega
    rcases run_succ_cases s oracle cands f n idx hidx with ⟨i', p', heq⟩ | heq | heq
    · rw [heq] at hk ⊢
      simp only [attemptsOf_cons_attempt, attemptsOf_cons_write, attemptsOf_nil,
        List.length_cons, List.length_nil] at hk
      obtain rfl : k = 0 := by omega
      simp [attemptsOf, Nat.mod_eq_of_lt hidx]
    · rw [heq] at hk ⊢
      simp only [attemptsOf_cons_attempt, attemptsOf_nil, List.length_cons,
        List.length_nil] at hk
      obtain rfl : k = 0 := by omega
      simp [attemptsOf, Nat.mod_eq_of_lt hidx]
    · rw [heq] at hk ⊢
      simp only [retryStepFn] at hk ⊢
      by_cases hw : idx + 1 = cands.length
      · rw [if_pos hw] at hk ⊢
        simp only [attemptsOf_cons_attempt, attemptsOf_cons_sleep,
          List.length_cons] at hk ⊢
        cases k with
        | zero => simp [Nat.mod_eq_of_lt hidx]
        | succ k' =>
          rw [List.getD_cons_succ]
          rw [ih (n + 1) 0 k' hlen (by omega)]
          congr 1
          have h1 : idx + (k' + 1) = cands.length + k' := by omega
          rw [Nat.zero_add, h1, Nat.add_mod_left]
      · rw [if_neg hw] at hk ⊢
        have hidx' : idx + 1 < cands.length := by omega
        simp only [attemptsOf_cons_attempt, attemptsOf_cons_sleep,
          List.length_cons] at hk ⊢
        cases k with
        | zero => simp [Nat.mod_eq_of_lt hidx]
        | succ k' =>
          rw [List.getD_cons_succ]
          rw [ih (n + 1) (idx + 1) k' hidx' (by omega)]
          have harith : idx + 1 + k' = idx + (k' + 1) := by omega
          rw [harith]

/-! ## Append lemmas for trace projections. -/

theorem attemptsOf_append (l₁ l₂ : List Event) :
    attemptsOf (l₁ ++ l₂) = attemptsOf l₁ ++ attemptsOf l₂ :=
  List.filterMap_append l₁ l₂ _

theorem writesOf_append (l₁ l₂ : List Event) :
    writesOf (l₁ ++ l₂) = writesOf l₁ ++ writesOf l₂ :=
  List.filterMap_append l₁ l₂ _

/-! ## String inequalities used to separate the transient branch from the
capacity and abort branches. -/

theorem apiPrefix_ne_capacity (t : String) : ("API:" ++ t) ≠ "CAPACITY" := by
  intro h
  have h1 : (some 'A' : Option Char) = some 'C' :=
    congrArg (fun s => s.data.head?) h
  exact absurd h1 (by decide)

theorem apiPrefix_not_auth (t : String) :
    strStartsWith ("API:" ++ t) "AUTH_OR_NOTFOUND" = false := rfl

theorem mainBranch_api (t : String) :
    mainBranch (.err ("API:" ++ t)) = .transient := by
  simp only [mainBranch]
  rw [if_neg (apiPrefix_ne_capacity t)]
  simp [apiPrefix_not_auth t]

/-! ## Cross-product structure of the candidate sequence. -/

theorem candidates_length (ads : List String) (ocpus : List Nat) (r : Nat) :
    (candidates ads ocpus r).length = ads.length * ocpus.length := by
  induction ads with
  | nil => simp [candidates]
  | cons ad tl ih =>
    show ((ocpus.map fun o => (ad, o, o * r)) ++ candidates tl ocpus r).length = _
    rw [List.length_append, List.length_map, ih, List.length_cons, Nat.succ_mul,
      Nat.add_comm]

theorem candidates_getElem (ads : List String) (ocpus : List Nat) (r : Nat) :
    ∀ (i j : Nat) (a : String) (o : Nat), ads[i]? = some a → ocpus[j]? = some o →
      (candidates ads ocpus r)[i * ocpus.length + j]? = some (a, o, o * r) := by
  induction ads with
  | nil => intro i j a o ha _; simp at ha
  | cons ad tl ih =>
    intro i j a o ha ho
    have hj : j < ocpus.length := by
      by_contra hle
      rw [List.getElem?_eq_none (by omega)] at ho
      exact Option.noConfusion ho
    show ((ocpus.map fun o => (ad, o, o * r)) ++ candidates tl ocpus r)[_]? = _
    cases i with
    | zero =>
      obtain rfl : ad = a := by simpa using ha
      rw [Nat.zero_mul, Nat.zero_add,
        List.getElem?_append_left (by simpa using hj), List.getElem?_map, ho]
      rfl
    | succ i' =>
      have hlen : ocpus.length ≤ (i' + 1) * ocpus.length + j := by
        rw [Nat.succ_mul]; omega
      rw [List.getElem?_append_right (by simpa using hlen), List.length_map]
      have harith : (i' + 1) * ocpus.length + j - ocpus.length =
          i' * ocpus.length + j := by
        rw [Nat.succ_mul]; omega
      rw [harith]
      exact ih i' j a o (by simpa using ha) ho

/-! ## Claims. -/

/-- C1: at most one success record is ever persisted per run; once a
`try_launch` invocation returns successfully, the loop writes the two-line
record (instance id, public IP) exactly once, ends in the terminal
`succeeded` state, and issues no event — in particular no further
provisioning attempt — after the write. -/
theorem claim_C1 (s : Nat) (oracle : Nat → AttemptResult) (cands : List Cand)
    (fuel n idx : Nat) :
    (writesOf (run s oracle cands fuel n idx).1).length ≤ 1
    ∧ (∀ (r : String) (pre post : List Event),
        (run s oracle cands fuel n idx).1 = pre ++ .writeRecord r :: post →
        post = [])
    ∧ (∀ inst ip, (run s oracle cands fuel n idx).2 = .succeeded inst ip →
        writesOf (run s oracle cands fuel n idx).1 = [successRecord inst ip]) := by
  refine ⟨okTrace_writes_le_one _ (okTrace_run s oracle cands fuel n idx), ?_, ?_⟩
  · intro r pre post h
    exact okTrace_write_last r pre post (h ▸ okTrace_run s oracle cands fuel n idx)
  · intro inst ip h
    exact run_succeeded_writes s oracle cands fuel n idx inst ip h

/-- Witness for C1 at a concrete run: a first-attempt success writes the
record exactly once. -/
theorem claim_C1_witness :
    writesOf (run 120 (fun _ => .ok "inst1" "1.2.3.4") [("AD-1", 4, 24)] 3 0 0).1 =
      [successRecord "inst1" "1.2.3.4"] :=
  (claim_C1 120 (fun _ => .ok "inst1" "1.2.3.4") [("AD-1", 4, 24)] 3 0 0).2.2
    "inst1" "1.2.3.4" (by decide)

/-- C2: the candidate sequence of one pass is the ordered cross product of
the availability-domain list (outer) and the OCPU list (inner), with
memory = ocpu × ratio; in particular AD order `[A, B]`, OCPU list `[4, 2]`,
ratio `6` yields `[(A,4,24), (A,2,12), (B,4,24), (B,2,12)]`. -/
theorem claim_C2 :
    candidates ["A", "B"] [4, 2] 6 =
      [("A", 4, 24), ("A", 2, 12), ("B", 4, 24), ("B", 2, 12)]
    ∧ (∀ (ads : List String) (ocpus : List Nat) (r i j : Nat) (a : String)
        (o : Nat), ads[i]? = some a → ocpus[j]? = some o →
        (candidates ads ocpus r)[i * ocpus.length + j]? = some (a, o, o * r))
    ∧ (∀ (ads : List String) (ocpus : List Nat) (r : Nat),
        (candidates ads ocpus r).length = ads.length * ocpus.length) := by
  refine ⟨by decide, ?_, ?_⟩
  · intro ads ocpus r i j a o ha ho
    exact candidates_getElem ads ocpus r i j a o ha ho
  · intro ads ocpus r
    exact candidates_length ads ocpus r

/-- Witness for C2: position 1·2+0 of the example sequence is `(B,4,24)`. -/
theorem claim_C2_witness :
    (candidates ["A", "B"] [4, 2] 6)[(2 : Nat)]? = some ("B", 4, 24) :=
  claim_C2.2.1 ["A", "B"] [4, 2] 6 1 0 "B" 4 (by decide) (by decide)

/-- C3: the classifier applies its rules in this fixed order: status 404 or
an authorization/not-found keyword gives the non-retryable branch;
otherwise a capacity keyword gives the capacity branch; otherwise the
transient branch, whose message carries the raw status/code/message.  In
particular a 404 whose message also mentions capacity is non-retryable. -/
theorem claim_C3 (status : Nat) (code message : String) :
    ((status = 404 || strIn "notauthorized" (strLower message)
        || strIn "not found" (strLower message)) = true →
      mainBranch (.err (classifyServiceErr status code message)) = .abort)
    ∧ ((status = 404 || strIn "notauthorized" (strLower message)
        || strIn "not found" (strLower message)) = false →
       (capacityKeywords.any fun k => strIn k (strLower message)) = true →
      mainBranch (.err (classifyServiceErr status code message)) = .capacity)
    ∧ ((status = 404 || strIn "notauthorized" (strLower message)
        || strIn "not found" (strLower message)) = false →
       (capacityKeywords.any fun k => strIn k (strLower message)) = false →
      classifyServiceErr status code message = apiMsg status code message
      ∧ mainBranch (.err (classifyServiceErr status code message)) = .transient)
    ∧ mainBranch (.err (classifyServiceErr 404 code "Out of host capacity")) =
        .abort := by
  refine ⟨?_, ?_, ?_, ?_⟩
  · intro h
    simp only [classifyServiceErr, h, if_true]
    decide
  · intro h1 h2
    simp only [classifyServiceErr, h1, Bool.false_eq_true, if_false, h2, if_true]
    decide
  · intro h1 h2
    have hc : classifyServiceErr status code message = apiMsg status code message := by
      simp only [classifyServiceErr, h1, h2, Bool.false_eq_true, if_false]
    refine ⟨hc, ?_⟩
    rw [hc]
    exact mainBranch_api (toString status ++ " " ++ code ++ " " ++ message)
  · have h404 : classifyServiceErr 404 code "Out of host capacity" =
        authOrNotFoundMsg := by
      simp [classifyServiceErr]
    rw [h404]
    decide

/-- Witness for C3: a plain capacity failure takes the capacity branch. -/
theorem claim_C3_witness :
    mainBranch
      (.err (classifyServiceErr 500 "InternalError" "Out of host capacity")) =
      Branch.capacity :=
  (claim_C3 500 "InternalError" "Out of host capacity").2.1 (by decide) (by decide)

/-- C4: capacity exhaustion never halts the loop: after `N` consecutive
`"CAPACITY"` outcomes the run is still in progress (neither succeeded nor
aborted), its trace is exactly `retryTrace` — one attempt followed by one
fixed-interval sleep per outcome, with one extra sleep when the index
wraps past the end of the candidate list back to 0 — and with one more
unit of fuel the scheduler issues attempt `N + 1`. -/
theorem claim_C4 (s : Nat) (oracle : Nat → AttemptResult) (cands : List Cand)
    (N n idx : Nat) (hne : cands ≠ []) (hidx : idx < cands.length)
    (hcap : ∀ k, k < N → oracle (n + k) = .err "CAPACITY") :
    run s oracle cands N n idx =
      (retryTrace s cands N idx,
        .outOfFuel (n + N) (advanceIdx cands.length N idx))
    ∧ (attemptsOf (run s oracle cands (N + 1) n idx).1).length = N + 1 := by
  have hret : ∀ k, k < N → isRetryable (oracle (n + k)) = true := by
    intro k hk; rw [hcap k hk]; decide
  exact ⟨run_retry_trace s oracle cands N n idx hne hidx hret,
    run_attempts_count s oracle cands N n idx hne hidx hret⟩

/-- Witness for C4 at `N = 3` over a two-candidate list. -/
theorem claim_C4_witness :
    run 120 (fun _ => .err "CAPACITY") [("A", 4, 24), ("B", 4, 24)] 3 0 0 =
      (retryTrace 120 [("A", 4, 24), ("B", 4, 24)] 3 0,
        .outOfFuel (0 + 3) (advanceIdx ([("A", 4, 24), ("B", 4, 24)] : List Cand).length 3 0))
    ∧ (attemptsOf (run 120 (fun _ => .err "CAPACITY")
        [("A", 4, 24), ("B", 4, 24)] (3 + 1) 0 0).1).length = 3 + 1 :=
  claim_C4 120 (fun _ => .err "CAPACITY") [("A", 4, 24), ("B", 4, 24)] 3 0 0
    (by decide) (by decide) (fun _ _ => rfl)

/-- C5: a non-retryable verdict (an `"AUTH_OR_NOTFOUND"`-prefixed message)
halts the loop at once: after `N` retryable outcomes followed by the
verdict, the run ends in the terminal `aborted` state — distinct from
`succeeded` — with exactly `N + 1` attempts issued, no attempt after the
verdict, and no success record written, for every remaining fuel budget. -/
theorem claim_C5 (s : Nat) (oracle : Nat → AttemptResult) (cands : List Cand)
    (N n idx fuel : Nat) (m : String)
    (hne : cands ≠ []) (hidx : idx < cands.length)
    (hret : ∀ k, k < N → isRetryable (oracle (n + k)) = true)
    (hnr : oracle (n + N) = .err m)
    (hpre : strStartsWith m "AUTH_OR_NOTFOUND" = true)
    (hfuel : N < fuel) :
    (run s oracle cands fuel n idx).2 = .aborted
    ∧ (attemptsOf (run s oracle cands fuel n idx).1).length = N + 1
    ∧ writesOf (run s oracle cands fuel n idx).1 = [] := by
  have h := run_aborted_after s oracle cands N n idx m hne hidx hret hnr hpre
    fuel hfuel
  rw [h]
  refine ⟨rfl, ?_, ?_⟩
  · rw [attemptsOf_append, List.length_append, retryTrace_attempts_length]
    simp [attemptsOf]
  · rw [writesOf_append, retryTrace_writes]
    simp [writesOf]

/-- Witness for C5: one capacity outcome, then the non-retryable verdict,
with surplus fuel. -/
theorem claim_C5_witness :
    (run 120 (fun n => if n = 0 then .err "CAPACITY" else .err authOrNotFoundMsg)
        [("A", 4, 24), ("B", 4, 24)] 5 0 0).2 = .aborted
    ∧ (attemptsOf (run 120
        (fun n => if n = 0 then .err "CAPACITY" else .err authOrNotFoundMsg)
        [("A", 4, 24), ("B", 4, 24)] 5 0 0).1).length = 1 + 1
    ∧ writesOf (run 120
        (fun n => if n = 0 then .err "CAPACITY" else .err authOrNotFoundMsg)
        [("A", 4, 24), ("B", 4, 24)] 5 0 0).1 = [] :=
  claim_C5 120 (fun n => if n = 0 then .err "CAPACITY" else .err authOrNotFoundMsg)
    [("A", 4, 24), ("B", 4, 24)] 1 0 0 5 authOrNotFoundMsg
    (by decide) (by decide)
    (by
      intro k hk
      obtain rfl : k = 0 := by omega
      decide)
    rfl (by decide) (by decide)

/-- C6 counterexample: the claim says the enumeration order is derived
solely from configuration, but `ad_order` (line 344) is built from the
provider's availability-domain listing: two runs with the identical
configured `ADS = ["AD-1", "AD-2"]` whose providers report different AD
listings enumerate different candidate sequences. -/
theorem claim_C6_counterexample :
    candidates
        (adOrder ["AD-1", "AD-2"]
          (list_availability_domains (some ["AD-1", "AD-2"]) ["AD-1", "AD-2"]))
        [4] 6 ≠
      candidates
        (adOrder ["AD-1", "AD-2"]
          (list_availability_domains (some ["AD-2"]) ["AD-1", "AD-2"]))
        [4] 6 := by decide

/-- C6 (amended): the enumeration order is a total, deterministic order
derived from the configuration together with the availability-domain
listing observed once at startup; it is never influenced by runtime
outcomes observed during the loop (e.g. capacity): for a fixed candidate
list, two runs driven by arbitrary, different outcome oracles attempt the
identical candidate at every position `k` both runs reach. -/
theorem claim_C6 (s : Nat) (cands : List Cand)
    (oracle₁ oracle₂ : Nat → AttemptResult) (fuel₁ fuel₂ k : Nat)
    (hne : cands ≠ [])
    (h1 : k < (attemptsOf (run s oracle₁ cands fuel₁ 0 0).1).length)
    (h2 : k < (attemptsOf (run s oracle₂ cands fuel₂ 0 0).1).length) :
    (attemptsOf (run s oracle₁ cands fuel₁ 0 0).1).getD k dfltCand =
      (attemptsOf (run s oracle₂ cands fuel₂ 0 0).1).getD k dfltCand := by
  have hlen : 0 < cands.length := List.length_pos.mpr hne
  rw [run_attempt_kth s oracle₁ cands fuel₁ 0 0 k hlen h1,
    run_attempt_kth s oracle₂ cands fuel₂ 0 0 k hlen h2]

/-- Witness for C6 (amended): an immediately-successful run and an
all-capacity run attempt the same first candidate. -/
theorem claim_C6_witness :
    (attemptsOf (run 120 (fun _ => .ok "i" "p")
        [("AD-1", 4, 24), ("AD-2", 2, 12)] 3 0 0).1).getD 0 dfltCand =
      (attemptsOf (run 120 (fun _ => .err "CAPACITY")
        [("AD-1", 4, 24), ("AD-2", 2, 12)] 5 0 0).1).getD 0 dfltCand :=
  claim_C6 120 [("AD-1", 4, 24), ("AD-2", 2, 12)] (fun _ => .ok "i" "p")
    (fun _ => .err "CAPACITY") 3 5 0 (by decide) (by decide) (by decide)

/-! ## Subnet resolution, from `validate_and_maybe_switch_region`
(lines 143-241) and its helpers (lines 108-140). -/

/-- The subnet fields the resolution logic inspects. -/
structure Subnet where
  id : String
  displayName : String
  lifecycleState : String
  prohibitPublicIpOnVnic : Bool
deriving DecidableEq

/-- The provider surface consulted during subnet resolution, as total
functions; `getSubnet ... = none` models a provider 404. -/
structure NetEnv where
  getSubnet : String → String → Option Subnet
  listSubnets : String → List Subnet
  regionSubscriptions : List String

/-- `list_subnets_in_compartment` (lines 108-112): keep the subnets whose
lifecycle state is `AVAILABLE`. -/
def list_subnets_in_compartment (p : NetEnv) (region : String) : List Subnet :=
  (p.listSubnets region).filter fun s => s.lifecycleState == "AVAILABLE"

/-- The lookup part of `resolve_subnet_in_region` (lines 119-131): the
provided OCID resolved in the given region; the listing it also produces
feeds only `notify` diagnostics. -/
def resolve_subnet_in_region (p : NetEnv) (region : String) :
    Option String → Option String
  | some w => (p.getSubnet region w).map Subnet.id
  | none => none

/-- Sort key of the auto-discovery choice (line 213):
`s.display_name or s.id`. -/
def subnetSortKey (s : Subnet) : String :=
  if s.displayName = "" then s.id else s.displayName

/-- Ordering of subnets by their sort key. -/
def subnetLe (a b : Subnet) : Bool := strLe (subnetSortKey a) (subnetSortKey b)

/-- Placeholder for `headD` (auto-discovery only runs when the pool is
nonempty). -/
def dfltSubnet : Subnet := ⟨"", "", "", false⟩

/-- The region auto-switch scan (lines 182-198): the first subscribed
region other than the current one in which the wanted OCID resolves. -/
def switchSearch (p : NetEnv) (region0 w : String) : Option (String × String) :=
  p.regionSubscriptions.findSome? fun r =>
    if r = region0 then none
    else (p.getSubnet r w).map fun s => (r, s.id)

/-- Subnet auto-discovery (lines 206-216): among `AVAILABLE` subnets of
the region, prefer those that allow a public IP, and take the first by the
`display_name or id` sort (over all subnets when none allow a public IP);
error when the region has no subnet at all (line 209). -/
def autoFindSubnetIn (p : NetEnv) (region : String) : Except String String :=
  let subsNow := list_subnets_in_compartment p region
  if subsNow.isEmpty then
    .error "no subnets in current region"
  else
    let cand := subsNow.filter fun s => !s.prohibitPublicIpOnVnic
    let sortedCand := sortBy subnetLe cand
    let pool := if sortedCand.isEmpty then sortBy subnetLe subsNow else sortedCand
    .ok (pool.headD dfltSubnet).id

/-- The subnet-resolution portion of `validate_and_maybe_switch_region`
(lines 174-216): the final `(region, subnet id?)`, or the fatal
`RuntimeError` the function raises.  A `none` subnet id means the function
returns with `subnet_id = None`: no code path turns that case into an
error. -/
def resolveSubnet (p : NetEnv) (region0 : String) (wanted : Option String)
    (autoSwitch autoFind : Bool) : Except String (String × Option String) :=
  let found0 := resolve_subnet_in_region p region0 wanted
  let afterSwitch : Except String (String × Option String) :=
    match found0, wanted with
    | none, some w =>
      if autoSwitch then
        match switchSearch p region0 w with
        | some (r, sid) => .ok (r, some sid)
        | none => .error "subnet not found in any subscribed region"
      else .ok (region0, none)
    | _, _ => .ok (region0, found0)
  match afterSwitch with
  | .error e => .error e
  | .ok (region, some sid) => .ok (region, some sid)
  | .ok (region, none) =>
    if autoFind then
      match autoFindSubnetIn p region with
      | .error e => .error e
      | .ok sid => .ok (region, some sid)
    else .ok (region, none)

/-! ## Image selection, `pick_latest_ubuntu_arm_image` (lines 89-105).
The input list is the provider's listing, already sorted by creation time
descending (`sort_by=TIMECREATED, sort_order=DESC`). -/

/-- The image fields the selection logic inspects. -/
structure OciImage where
  id : String
  displayName : String
deriving DecidableEq

/-- The inner `pick(ver)` (lines 98-103): the first image, in provider
order, whose lowered display name contains `ver` and an architecture
token (`aarch64` or `arm`). -/
def pickVer (imgs : List OciImage) (ver : String) : Option String :=
  imgs.findSome? fun img =>
    let name := strLower img.displayName
    if strIn ver name && (strIn "aarch64" name || strIn "arm" name) then
      some img.id
    else none

/-- `pick("22.04") or pick("24.04")` (line 105).  Image ids are OCIDs and
nonempty, so Python truthiness on the result is option-emptiness. -/
def pick_latest_ubuntu_arm_image (imgs : List OciImage) : Option String :=
  match pickVer imgs "22.04" with
  | some i => some i
  | none => pickVer imgs "24.04"

/-! ## One provisioning attempt, `try_launch` (lines 243-312). -/

/-- Provider behaviour during one `try_launch` invocation: whether the SSH
key `open` (line 251) succeeds, the launch call's outcome (`ServiceError`
status/code/message, or the accepted instance OCID), whether the instance
reaches `RUNNING` within the 900-second `wait_until` bound, the text of
the timeout exception, the VNIC attachment listing, and the resolved
public IP. -/
structure LaunchEnv where
  keyReadable : Bool
  launchResp : Except (Nat × String × String) String
  reachesRunning : Bool
  timeoutText : String
  vnicAttachments : List String
  publicIp : String

/-- `try_launch`: the key is read first (line 251, outside the `try`
block, so a failure escapes as a non-`RuntimeError` `OSError`);
a `ServiceError` from the launch is classified by lines 304-310;
`wait_until` overrunning its `max_wait_seconds=900` bound raises
`MaximumWaitTimeExceeded`, re-raised by the generic handler (line 311) as
an `EX:`-prefixed `RuntimeError`; a missing VNIC attachment (line 300)
raises a `RuntimeError` likewise re-raised with the `EX:` prefix;
otherwise the instance id and public IP are returned (line 302). -/
def try_launch (env : LaunchEnv) : AttemptResult :=
  if !env.keyReadable then .exn "OSError"
  else
    match env.launchResp with
    | .error (st, code, msg) => .err (classifyServiceErr st code msg)
    | .ok instId =>
      if !env.reachesRunning then
        .err ("EX:MaximumWaitTimeExceeded: " ++ env.timeoutText)
      else
        match env.vnicAttachments with
        | [] => .err "EX:RuntimeError: 未找到 VNIC 附着"
        | _ :: _ => .ok instId env.publicIp

theorem exPrefix_ne_capacity (t : String) :
    ("EX:MaximumWaitTimeExceeded: " ++ t) ≠ "CAPACITY" := by
  intro h
  have h1 : (some 'E' : Option Char) = some 'C' :=
    congrArg (fun s => s.data.head?) h
  exact absurd h1 (by decide)

theorem exPrefix_not_auth (t : String) :
    strStartsWith ("EX:MaximumWaitTimeExceeded: " ++ t) "AUTH_OR_NOTFOUND" =
      false := rfl

theorem mainBranch_timeout (t : String) :
    mainBranch (.err ("EX:MaximumWaitTimeExceeded: " ++ t)) = .transient := by
  simp only [mainBranch]
  rw [if_neg (exPrefix_ne_capacity t)]
  simp [exPrefix_not_auth t]

/-! ## Startup of `main` (lines 315-351) around the loop. -/

/-- Startup conditions checked before the loop. -/
structure StartupEnv where
  compartmentSet : Bool
  keyExists : Bool
  imageFound : Bool

/-- Terminal observation of the modelled process. -/
inductive ProcResult where
  | exitMissingEnv
  | exitMissingKey
  | exitValidateFailed (msg : String)
  | exitNoImage
  | loop (subnetId : Option String) (trace : List Event) (r : RunResult)
deriving DecidableEq

/-- `main`: the required-variable check (lines 316-320), the SSH-key
existence check (`os.path.exists`, lines 322-324), environment validation
(lines 332-337; its subnet portion is `resolveSubnet`), image resolution
(lines 346-349), then the retry loop.  `keyReadable` says whether the
per-attempt key `open` inside `try_launch` succeeds; when it fails the
attempt raises an `OSError` handled by `main`'s generic branch. -/
def mainModel (env : StartupEnv) (keyReadable : Bool)
    (resolved : Except String (String × Option String))
    (oracle : Nat → AttemptResult) (cands : List Cand)
    (sleepSec fuel : Nat) : ProcResult :=
  if !env.compartmentSet then .exitMissingEnv
  else if !env.keyExists then .exitMissingKey
  else
    match resolved with
    | .error m => .exitValidateFailed m
    | .ok (_, subnetId) =>
      if !env.imageFound then .exitNoImage
      else
        let oracle' := fun n => if keyReadable then oracle n else .exn "OSError"
        let r := run sleepSec oracle' cands fuel 0 0
        .loop subnetId r.1 r.2

/-- Provider with no visible subnets anywhere, for the C7 scenario. -/
def c7Env : NetEnv := ⟨fun _ _ => none, fun _ => [], []⟩

/-- C7 counterexample: with no subnet configured and auto-discovery
disabled, subnet resolution does NOT fail with any error — it returns
successfully with no subnet id, and `main` proceeds into the retry loop,
issuing a provisioning attempt with the absent subnet. -/
theorem claim_C7_counterexample :
    resolveSubnet c7Env "r1" none false false = .ok ("r1", none)
    ∧ (∀ e, resolveSubnet c7Env "r1" none false false ≠ .error e)
    ∧ mainModel ⟨true, true, true⟩ true
        (resolveSubnet c7Env "r1" none false false)
        (fun _ => .err "CAPACITY") [("AD-1", 4, 24)] 120 1 =
      .loop none [.attempt ("AD-1", 4, 24), .sleep 120, .sleep 120]
        (.outOfFuel 1 0) := by
  refine ⟨rfl, ?_, rfl⟩
  intro e h
  rw [show resolveSubnet c7Env "r1" none false false = .ok ("r1", none) from rfl]
    at h
  exact Except.noConfusion h

/-- C7 (amended): when the desired subnet id (if any) does not resolve in
the current region and neither region auto-switch nor subnet
auto-discovery applies, subnet resolution does not fail: it completes
successfully with `none` as the subnet id, and the scheduler then enters
the retry loop passing the absent subnet into every attempt.  The code has
no `ResolutionError("no usable subnet")` path. -/
theorem claim_C7 (p : NetEnv) (region : String) :
    (∀ autoSwitch : Bool,
      resolveSubnet p region none autoSwitch false = .ok (region, none))
    ∧ (∀ w : String, p.getSubnet region w = none →
        resolveSubnet p region (some w) false false = .ok (region, none)) := by
  constructor
  · intro autoSwitch
    simp [resolveSubnet, resolve_subnet_in_region]
  · intro w hw
    simp [resolveSubnet, resolve_subnet_in_region, hw]

/-- Witness for C7 (amended): a configured-but-missing subnet id with both
toggles off resolves to a successful `none`. -/
theorem claim_C7_witness :
    resolveSubnet c7Env "r1" (some "ocid1.subnet.missing") false false =
      .ok ("r1", none) :=
  (claim_C7 c7Env "r1").2 "ocid1.subnet.missing" rfl

/-- C8 counterexample: an SSH key file that exists but cannot be read is
not fatal at startup: the startup check (line 322) only tests existence,
so the process enters the retry loop, and each attempt's failed key read
escapes as an `OSError` that merely triggers the sleep-and-advance retry
branch (lines 376-379) — here two attempts, each followed by sleeps. -/
theorem claim_C8_counterexample :
    mainModel ⟨true, true, true⟩ false (.ok ("r1", some "subnet1"))
        (fun _ => .err "CAPACITY") [("AD-1", 4, 24)] 120 2 =
      .loop (some "subnet1")
        [.attempt ("AD-1", 4, 24), .sleep 120, .sleep 120,
          .attempt ("AD-1", 4, 24), .sleep 120, .sleep 120]
        (.outOfFuel 2 0) := rfl

/-- C8 (amended): a MISSING key file is fatal at startup, before the
retry loop and with it before any provisioning attempt; but a key file
that exists and is unreadable is handled per-attempt: every attempt's
failed read takes the generic sleep-and-advance branch, so the run never
succeeds and never aborts, following `retryTrace` for its whole fuel
budget. -/
theorem claim_C8 (oracle : Nat → AttemptResult) (cands : List Cand)
    (s fuel : Nat) (hne : cands ≠ []) :
    (∀ (keyReadable imageFound : Bool)
        (resolved : Except String (String × Option String)),
      mainModel ⟨true, false, imageFound⟩ keyReadable resolved oracle cands
        s fuel = .exitMissingKey)
    ∧ (∀ (region : String) (subnetId : Option String),
        mainModel ⟨true, true, true⟩ false (.ok (region, subnetId)) oracle cands
          s fuel =
        .loop subnetId (retryTrace s cands fuel 0)
          (.outOfFuel fuel (advanceIdx cands.length fuel 0))) := by
  constructor
  · intro keyReadable imageFound resolved
    rfl
  · intro region subnetId
    show ProcResult.loop subnetId
        (run s (fun n => if (false : Bool) then oracle n else .exn "OSError")
          cands fuel 0 0).1
        (run s (fun n => if (false : Bool) then oracle n else .exn "OSError")
          cands fuel 0 0).2 = _
    have h := run_retry_trace s
      (fun n => if (false : Bool) then oracle n else .exn "OSError")
      cands fuel 0 0 hne (List.length_pos.mpr hne) (fun _ _ => rfl)
    rw [h, Nat.zero_add]

/-- Witness for C8 (amended), exercised at a concrete unreadable-key run. -/
theorem claim_C8_witness :
    mainModel ⟨true, true, true⟩ false (.ok ("r1", some "s1"))
        (fun _ => .err "CAPACITY") [("AD-1", 4, 24)] 120 2 =
      .loop (some "s1") (retryTrace 120 [("AD-1", 4, 24)] 2 0)
        (.outOfFuel 2 (advanceIdx ([("AD-1", 4, 24)] : List Cand).length 2 0)) :=
  (claim_C8 (fun _ => .err "CAPACITY") [("AD-1", 4, 24)] 120 2 (by decide)).2
    "r1" (some "s1")

/-- C9: an accepted launch that does not reach `RUNNING` within the
bounded 900-second wait yields the re-raised `MaximumWaitTimeExceeded`
message, which `main` classifies into the generic transient
sleep-and-advance branch — never the capacity branch and never the
aborting branch, so the ordinary retry policy applies. -/
theorem claim_C9 (env : LaunchEnv) (instId : String)
    (hkey : env.keyReadable = true)
    (hacc : env.launchResp = .ok instId)
    (htimeout : env.reachesRunning = false) :
    try_launch env = .err ("EX:MaximumWaitTimeExceeded: " ++ env.timeoutText)
    ∧ mainBranch (try_launch env) = .transient
    ∧ isRetryable (try_launch env) = true := by
  have h1 : try_launch env =
      .err ("EX:MaximumWaitTimeExceeded: " ++ env.timeoutText) := by
    simp [try_launch, hkey, hacc, htimeout]
  refine ⟨h1, ?_, ?_⟩
  · rw [h1]; exact mainBranch_timeout env.timeoutText
  · rw [h1]
    simp [isRetryable, mainBranch_timeout env.timeoutText]

/-- Witness for C9 at a concrete timed-out launch. -/
theorem claim_C9_witness :
    try_launch ⟨true, .ok "oc1", false, "max wait", ["v1"], "1.2.3.4"⟩ =
      .err ("EX:MaximumWaitTimeExceeded: " ++ "max wait")
    ∧ mainBranch
        (try_launch ⟨true, .ok "oc1", false, "max wait", ["v1"], "1.2.3.4"⟩) =
      .transient
    ∧ isRetryable
        (try_launch ⟨true, .ok "oc1", false, "max wait", ["v1"], "1.2.3.4"⟩) =
      true :=
  claim_C9 ⟨true, .ok "oc1", false, "max wait", ["v1"], "1.2.3.4"⟩ "oc1"
    rfl rfl rfl

/-- C10: with no override, image selection scans the creation-descending
listing and returns the first image whose display name contains "22.04"
together with an architecture token; "24.04" is consulted only when no
primary match exists, so a primary match is chosen even over a more
recently created secondary match; the spec's example list picks the 22.04
image over the newer 24.04 one. -/
theorem claim_C10 :
    (∀ (imgs : List OciImage) (i : String),
      pickVer imgs "22.04" = some i → pick_latest_ubuntu_arm_image imgs = some i)
    ∧ (∀ imgs : List OciImage, pickVer imgs "22.04" = none →
        pick_latest_ubuntu_arm_image imgs = pickVer imgs "24.04")
    ∧ (∀ (img : OciImage) (rest : List OciImage) (ver : String),
        pickVer (img :: rest) ver =
          (if strIn ver (strLower img.displayName) &&
              (strIn "aarch64" (strLower img.displayName)
                || strIn "arm" (strLower img.displayName)) then
            some img.id
          else pickVer rest ver))
    ∧ pick_latest_ubuntu_arm_image
        [⟨"img-24", "x-24.04-arm-1"⟩, ⟨"img-22", "x-22.04-aarch64-2"⟩,
          ⟨"img-20", "x-20.04-aarch64-3"⟩] = some "img-22" := by
  refine ⟨?_, ?_, ?_, by decide⟩
  · intro imgs i h
    simp [pick_latest_ubuntu_arm_image, h]
  · intro imgs h
    simp [pick_latest_ubuntu_arm_image, h]
  · intro img rest ver
    cases hb : (strIn ver (strLower img.displayName) &&
        (strIn "aarch64" (strLower img.displayName)
          || strIn "arm" (strLower img.displayName))) with
    | false =>
      simp only [pickVer, List.findSome?_cons]
      rw [hb]
      simp [pickVer]
    | true =>
      simp only [pickVer, List.findSome?_cons]
      rw [hb]
      simp

/-- Witness for C10: the spec example, routed through the first conjunct. -/
theorem claim_C10_witness :
    pick_latest_ubuntu_arm_image
      [⟨"img-24", "x-24.04-arm-1"⟩, ⟨"img-22", "x-22.04-aarch64-2"⟩,
        ⟨"img-20", "x-20.04-aarch64-3"⟩] = some "img-22" :=
  claim_C10.1
    [⟨"img-24", "x-24.04-arm-1"⟩, ⟨"img-22", "x-22.04-aarch64-2"⟩,
      ⟨"img-20", "x-20.04-aarch64-3"⟩] "img-22" (by decide)

end Ocpl

